import Mathlib

/-!
Verification development for the MDL module element code
(`src/io/scene/mdl_elements/mdl_elements_module.cpp`).

The C++ code is shallowly embedded: DB tags and expression handles become
natural-number identifiers resolved through an explicit environment,
expression lists become association lists (name, id), and the breadth-first
uniform-propagation analyzer becomes a fuel-indexed worklist function.
Pointer identity of expression handles is modelled as identifier equality.
-/

namespace MdlElements

/-- Database tags (`DB::Tag`). -/
abbrev Tag := Nat

/-- Identity of an expression node (`mi::base::Handle<const IExpression>`
compared by pointer identity in the source). -/
abbrev ExprId := Nat

/-- `SERIAL::Class_id` values distinguished by the source. -/
inductive ClassId where
  | materialInstance
  | functionCall
  | materialDefinition
  | functionDefinition
  | moduleClass
  | otherClass
deriving DecidableEq, Repr

/-- `IType::Kind` restricted to what `add_material` inspects
(texture / bsdf-measurement / light-profile vs. everything else). -/
inductive TKind where
  | texture
  | bsdfMeasurement
  | lightProfile
  | otherKind
deriving DecidableEq, Repr

/-- Uniform/varying modifier bits of a type
(`MK_UNIFORM` / `MK_VARYING` of `get_type_modifiers`). -/
structure TypeMod where
  uniform : Bool
  varying : Bool
deriving DecidableEq, Repr

/-- An expression list (`IExpression_list`): a named, ordered list.
`get_expression(name)` is lookup by name, `get_expression(i)` by index. -/
abbrev ExprList := List (String × ExprId)

/-- `IExpression::Kind` as used by `find_path` and `can_enforce_uniform`.
(`EK_FORCE_32_BIT` is not a real kind and is omitted.) -/
inductive ExprKind where
  | constant
  | call (tag : Tag)
  | directCall (tag : Tag) (args : ExprList)
  | parameterRef
  | temporaryRef
deriving DecidableEq, Repr

/-- An expression node: its kind, the `MK_UNIFORM` bit of `get_type()`
(used as the return type of call expressions), and the kind of `get_type()`
(used by the resource-type override in `add_material`). -/
structure Expr where
  kind : ExprKind
  retUniform : Bool
  tyKind : TKind
deriving DecidableEq, Repr

/-- Operator codes (`mi::mdl::IExpression::Operator`). Only the ternary
conditional operator is distinguished by the analyzed code. -/
abbrev OpCode := Nat

/-- The code of the ternary conditional operator (`OK_TERNARY`). -/
def okTernary : OpCode := 0

/-- `mi::mdl::IDefinition::Semantics`, restricted to the cases
`is_uniform_function` and the ternary test distinguish. -/
inductive Semantic where
  | fieldAccess
  | arrayConstructor
  | indexAccess
  | arrayLength
  | setObjectId
  | setTransforms
  | operatorSem (code : OpCode)
  | userDefined
deriving DecidableEq, Repr

/-- A function definition (`Mdl_function_definition`) as seen by the
analyzer: its semantic, whether `find_signature` succeeds, the
`DP_IS_VARYING` property of the found definition, and the modifiers of its
parameter types (`get_mdl_parameter_type`, by position). -/
structure FunctionDef where
  semantic : Semantic
  sigFound : Bool
  isVarying : Bool
  paramTypes : List TypeMod
deriving DecidableEq, Repr

/-- A function call (`Mdl_function_call`): its definition tag and its
argument list. -/
structure FunctionCallE where
  defTag : Tag
  args : ExprList
deriving DecidableEq, Repr

/-- The transaction-backed object environment: expression nodes by
identity, class ids of tags, and the data accessed through
`DB::Access` for each class. All maps are total, mirroring the fact
that valid handles and tags always dereference in the source. -/
structure Env where
  exprs : ExprId → Expr
  classOf : Tag → ClassId
  fcalls : Tag → FunctionCallE
  minsts : Tag → ExprList
  fdefs : Tag → FunctionDef

/-- Lookup by name in a named list (`get_expression(name)` /
`get_type(name)`). -/
def lookupName {α : Type} (l : List (String × α)) (n : String) : Option α :=
  match l with
  | [] => none
  | (m, a) :: rest => if m = n then some a else lookupName rest n

/-- The tail of `find_path`: walk the remaining path segments from an
expression node (the loop over `pos` in the source). A dotted path string
is embedded as its list of segments. -/
def findPathRest (env : Env) : List String → ExprId → Option ExprId
  | [], e => some e
  | a :: rest, e =>
    match (env.exprs e).kind with
    | ExprKind.call tag =>
      match env.classOf tag with
      | ClassId.functionCall =>
        match lookupName (env.fcalls tag).args a with
        | some e2 => findPathRest env rest e2
        | none => none
      | ClassId.materialInstance =>
        match lookupName (env.minsts tag) a with
        | some e2 => findPathRest env rest e2
        | none => none
      | _ => none
    | ExprKind.directCall _ cargs =>
      match lookupName cargs a with
      | some e2 => findPathRest env rest e2
      | none => none
    | _ => none

/-- `find_path`: resolve a dotted path (pre-split into segments) against a
root argument list. -/
def find_path (env : Env) (path : List String) (args : ExprList) :
    Option ExprId :=
  match path with
  | [] => none
  | p :: rest =>
    match lookupName args p with
    | some e => findPathRest env rest e
    | none => none

/-- `is_uniform_function`: DAG intrinsics and operators are always
uniform; otherwise the definition found by `find_signature` must exist and
not carry `DP_IS_VARYING`. -/
def is_uniform_function (d : FunctionDef) : Bool :=
  match d.semantic with
  | Semantic.fieldAccess => true
  | Semantic.arrayConstructor => true
  | Semantic.indexAccess => true
  | Semantic.arrayLength => true
  | Semantic.setObjectId => true
  | Semantic.setTransforms => true
  | Semantic.operatorSem _ => true
  | Semantic.userDefined => d.sigFound && !d.isVarying

/-- A work-queue entry of `can_enforce_uniform` (struct `Entry`). -/
structure Entry where
  expr : ExprId
  isUniform : Bool
deriving DecidableEq, Repr

/-- The argument-pushing loop of `can_enforce_uniform`: push all arguments
of a call, each with requirement `!p_is_varying && (auto || p_is_uniform)`;
when `isT` (ternary callee, only set in the `EK_CALL` branch) the argument
at position 0 gets `p_is_uniform = true`, `p_is_varying = false`. -/
def pushArgs (auto isT : Bool) (ptypes : List TypeMod) :
    Nat → ExprList → List Entry
  | _, [] => []
  | i, (_, a) :: rest =>
    let pt := ptypes.getD i ⟨false, false⟩
    let pu := if isT && i == 0 then true else pt.uniform
    let pv := if isT && i == 0 then false else pt.varying
    ⟨a, !pv && (auto || pu)⟩ :: pushArgs auto isT ptypes (i + 1) rest

/-- Process one popped entry of the `can_enforce_uniform` loop: `none`
models an immediate `return false` (conflict), `some l` the entries pushed
onto the queue. Mirrors the `switch (expr->get_kind())` in the source. -/
def stepEntry (env : Env) (e : Entry) : Option (List Entry) :=
  match (env.exprs e.expr).kind with
  | ExprKind.constant => some []
  | ExprKind.call tag =>
    match env.classOf tag with
    | ClassId.materialInstance =>
      if e.isUniform then none else some []
    | ClassId.functionCall =>
      let fc := env.fcalls tag
      let d := env.fdefs fc.defTag
      if e.isUniform && !(env.exprs e.expr).retUniform
          && !(is_uniform_function d) then
        none
      else
        let auto := e.isUniform && !(env.exprs e.expr).retUniform
        let isT := d.semantic = Semantic.operatorSem okTernary
        some (pushArgs auto isT d.paramTypes 0 fc.args)
    | _ => none
  | ExprKind.directCall tag cargs =>
    match env.classOf tag with
    | ClassId.materialDefinition => none
    | ClassId.functionDefinition =>
      let d := env.fdefs tag
      if e.isUniform && !(env.exprs e.expr).retUniform
          && !(is_uniform_function d) then
        none
      else
        let auto := e.isUniform && !(env.exprs e.expr).retUniform
        some (pushArgs auto false d.paramTypes 0 cargs)
    | _ => none
  | ExprKind.parameterRef => none
  | ExprKind.temporaryRef => none

/-- Result of the analysis loop: success with the accumulated
`must_be_uniform` flag, conflict (`return false`), or fuel exhaustion
(an artifact of the embedding: the C++ loop has no fuel). -/
inductive AResult where
  | ok (must : Bool)
  | conflict
  | fuelOut
deriving DecidableEq, Repr

/-- The worklist loop of `can_enforce_uniform`, additionally returning the
trace of popped entries (the conflicting entry included). The
`must_be_uniform` update (`is_uniform && expr == p_expr`) happens before
the entry is processed, exactly as in the source. -/
def analyzeLoopT (env : Env) (pExpr : ExprId) :
    Nat → List Entry → Bool → AResult × List Entry
  | _, [], must => (AResult.ok must, [])
  | 0, _ :: _, _ => (AResult.fuelOut, [])
  | Nat.succ fuel, e :: rest, must =>
    let must2 := if e.isUniform && e.expr == pExpr then true else must
    match stepEntry env e with
    | none => (AResult.conflict, [e])
    | some pushed =>
      let r := analyzeLoopT env pExpr fuel (rest ++ pushed) must2
      (r.1, e :: r.2)

/-- `can_enforce_uniform` with trace: seed the queue with the argument of
the first path segment and the `MK_UNIFORM` bit of its declared parameter
type. `none` models the source's undefined behaviour when the first
segment is not a parameter (never reached from `add_material`). -/
def can_enforce_uniformT (env : Env) (args : ExprList)
    (paramTypes : List (String × TypeMod)) (path : List String)
    (pExpr : ExprId) (fuel : Nat) : Option (AResult × List Entry) :=
  match lookupName args (path.headD ""),
      lookupName paramTypes (path.headD "") with
  | some e, some pt =>
    some (analyzeLoopT env pExpr fuel [⟨e, pt.uniform⟩] false)
  | _, _ => none

/-- `can_enforce_uniform`: result only (the bool return value and the
`must_be_uniform` out-parameter, merged into `AResult`). -/
def can_enforce_uniform (env : Env) (args : ExprList)
    (paramTypes : List (String × TypeMod)) (path : List String)
    (pExpr : ExprId) (fuel : Nat) : Option AResult :=
  (can_enforce_uniformT env args paramTypes path pExpr fuel).map Prod.fst

/-! Module creation and finalization (driver). -/

/-- Kinds of records in the name registry, i.e. the class ids the driver
distinguishes when it looks up a DB name. -/
inductive RegKind where
  | moduleKind
  | functionDef
  | materialDef
  | otherReg
deriving DecidableEq, Repr

/-- The name registry visible through the transaction:
`name_to_tag` + `get_class_id` collapsed into name -> kind.
`store` prepends, so the most recent binding wins. -/
abbrev RegState := List (String × RegKind)

/-- `transaction->name_to_tag` + `get_class_id`. -/
def regLookup (st : RegState) (n : String) : Option RegKind :=
  lookupName st n

/-- `transaction->store(...)` of a record under a DB name. Both `store`
and `store_for_reference_counting` register the name. -/
def regStore (st : RegState) (n : String) (k : RegKind) : RegState :=
  (n, k) :: st

/-- A compiled module as the driver sees it. Names are the DB names
(the `mdl::` prefix is already applied). The booleans stand in for the
outcomes of the external collaborators. -/
structure ModuleDesc where
  name : String
  valid : Bool
  restoreOk : Bool
  compileOk : Bool
  errorCount : Nat
  imports : List String
  functionNames : List String
  materialNames : List String

/-- Environment resolving an imported module's name to its description
(`module->get_import(i)` gives the module object; we key by name). -/
abbrev ModEnv := String → ModuleDesc

/-- The name-collision check loops of `create_module_internal`
(lines 1315-1339): true iff every name is still free. The loop performs
no store. -/
def checkNamesFree (st : RegState) : List String → Bool
  | [] => true
  | n :: rest => (regLookup st n).isNone && checkNamesFree st rest

/-- The store loops of `create_module_internal`: one record per
function/material definition name. -/
def storeDefs (st : RegState) (k : RegKind) : List String → RegState
  | [] => st
  | n :: rest => storeDefs (regStore st n k) k rest

/-- The finalize step of `create_module_internal` after import
resolution: check every function name, then every material name, against
the registry; only if all are free, store the module record followed by
the definition records. -/
def finalizeModule (st : RegState) (m : ModuleDesc) : Int × RegState :=
  if !(checkNamesFree st m.functionNames) then (-3, st)
  else if !(checkNamesFree st m.materialNames) then (-3, st)
  else
    (0, storeDefs
      (storeDefs (regStore st m.name RegKind.moduleKind)
        RegKind.functionDef m.functionNames)
      RegKind.materialDef m.materialNames)

/-- The early-exit prefix of `create_module_internal`: validity check,
idempotent existence check (return 1 / -3 without storing), and the
restore-imports / DAG-compile / error-message gates. `some r` is an early
return, `none` means the driver proceeds to import resolution. -/
def moduleGate (st : RegState) (m : ModuleDesc) : Option (Int × RegState) :=
  if m.valid = false then some (-2, st)
  else
    match regLookup st m.name with
    | some k =>
      if k = RegKind.moduleKind then some (1, st) else some (-3, st)
    | none =>
      if m.restoreOk = false then some (-4, st)
      else if m.compileOk = false then some (-2, st)
      else if m.errorCount ≠ 0 then some (-2, st)
      else none

/-- A pending step of the driver's recursive import walk: register one
module, or work through an import list. -/
inductive DriveTask where
  | modTask (st : RegState) (m : ModuleDesc)
  | impTask (st : RegState) (imps : List String)

/-- The recursive core shared by `create_module_internal` and its import
loop, structurally recursive on `fuel` (the source assumes an acyclic
DAG of imports; fuel exhaustion reports -4 like a failed import). -/
def driveAux (menv : ModEnv) : Nat → DriveTask → Int × RegState
  | 0, DriveTask.modTask st _ => (-4, st)
  | 0, DriveTask.impTask st _ => (-4, st)
  | Nat.succ f, DriveTask.modTask st m =>
    match moduleGate st m with
    | some r => r
    | none =>
      if (driveAux menv f (DriveTask.impTask st m.imports)).1 = 0 then
        finalizeModule (driveAux menv f (DriveTask.impTask st m.imports)).2 m
      else driveAux menv f (DriveTask.impTask st m.imports)
  | Nat.succ f, DriveTask.impTask st imps =>
    match imps with
    | [] => (0, st)
    | imp :: rest =>
      match regLookup st imp with
      | some k =>
        if k = RegKind.moduleKind then
          driveAux menv f (DriveTask.impTask st rest)
        else (-3, st)
      | none =>
        if (driveAux menv f (DriveTask.modTask st (menv imp))).1 < 0 then
          (-4, (driveAux menv f (DriveTask.modTask st (menv imp))).2)
        else
          driveAux menv f (DriveTask.impTask
            (driveAux menv f (DriveTask.modTask st (menv imp))).2 rest)

/-- `Mdl_module::create_module_internal`: the gate, then recursive import
resolution, then the finalize step. -/
def createModuleInternal (menv : ModEnv) (fuel : Nat) (st : RegState)
    (m : ModuleDesc) : Int × RegState :=
  driveAux menv fuel (DriveTask.modTask st m)

/-- The import loop of `create_module_internal`: for each import, if
already registered its class must be a module (else -3); otherwise the
whole driver runs recursively on it, a failure surfacing as -4 with the
partially extended registry retained. -/
def processImports (menv : ModEnv) (fuel : Nat) (st : RegState)
    (imps : List String) : Int × RegState :=
  driveAux menv fuel (DriveTask.impTask st imps)

/-- `Mdl_module::create_module` (entry points, shared prefix): name
validity check, idempotent existence check, external load
(`validName` / `loadOk` stand in for the external collaborators), then
`create_module_internal`. -/
def create_module (menv : ModEnv) (validName : Bool) (loadOk : Bool)
    (m : ModuleDesc) (fuel : Nat) (st : RegState) : Int × RegState :=
  if validName = false then (-1, st)
  else
    match regLookup st m.name with
    | some k => if k = RegKind.moduleKind then (1, st) else (-3, st)
    | none =>
      if loadOk = false then (-2, st)
      else createModuleInternal menv fuel st m

/-! Version selection for variant modules. -/

/-- The MDL language versions of `mi::mdl::IMDL::MDL_version` that the
switch distinguishes; `latestVersion` models `MDL_LATEST_VERSION`. -/
inductive MdlVersion where
  | v1_0
  | v1_1
  | v1_2
  | v1_3
  | v1_4
  | latestVersion
deriving DecidableEq, Repr

/-- The `switch (max_major) / switch (max_minor)` mapping of
`create_module` (variant overload). -/
def versionFromPair : Int × Int → MdlVersion
  | (1, 0) => MdlVersion.v1_0
  | (1, 1) => MdlVersion.v1_1
  | (1, 2) => MdlVersion.v1_2
  | (1, 3) => MdlVersion.v1_3
  | (1, 4) => MdlVersion.v1_4
  | _ => MdlVersion.latestVersion

/-- One iteration of the version-maximum loop of `create_module`
(variant overload): `if (major > max_major) {...} else if (major ==
max_major && minor > max_minor) {...}`. -/
def vstep (acc p : Int × Int) : Int × Int :=
  if p.1 > acc.1 then p
  else if p.1 = acc.1 ∧ p.2 > acc.2 then (acc.1, p.2)
  else acc

/-- The version-maximum loop of `create_module` (variant overload),
seeded with `max_major = 1, max_minor = 0`. -/
def maxVersionPair (l : List (Int × Int)) : Int × Int :=
  l.foldl vstep (1, 0)

/-- The MDL version chosen for a newly synthesized variant module, from
the prototypes' declared `(major, minor)` versions. -/
def chooseVersion (l : List (Int × Int)) : MdlVersion :=
  versionFromPair (maxVersionPair l)

/-- Lexicographic order on `(major, minor)` pairs. -/
def lexLe (p q : Int × Int) : Prop :=
  p.1 < q.1 ∨ (p.1 = q.1 ∧ p.2 ≤ q.2)

instance (p q : Int × Int) : Decidable (lexLe p q) := by
  unfold lexLe; infer_instance

/-! Variant synthesis: `add_variant`. -/

/-- Semantic types of the neuray expression layer (`IType`), abstract:
the claims depend only on the compatibility predicate, which lives
outside the analyzed file (`argument_type_matches_parameter_type` in
`mdl_elements_utilities`), so it is passed in as a parameter. -/
abbrev Ty := Nat

/-- An override default as `add_variant` consumes it: the type of its
value and whether `int_expr_to_mdl_ast_expr` succeeds on it. -/
structure VarExpr where
  ty : Ty
  convertOk : Bool
deriving DecidableEq, Repr

/-- The prototype definition as `add_variant` reads it: its ordered
parameter names and its parameter types by name. -/
structure PrototypeD where
  paramNames : List String
  paramTypes : List (String × Ty)
deriving DecidableEq, Repr

/-- The validation loop of `add_variant` (lines 991-1000): for each
override in order, an unknown name yields -6, a type mismatch -7;
0 means all overrides validated. -/
def checkDefaults (typeMatches : Ty → Ty → Bool)
    (expected : List (String × Ty)) : List (String × VarExpr) → Int
  | [] => 0
  | (n, v) :: rest =>
    match lookupName expected n with
    | none => -6
    | some t =>
      if typeMatches v.ty t then checkDefaults typeMatches expected rest
      else -7

/-- The default-building loop of `add_variant` (lines 1014-1031): walk
the prototype's parameters in order; a present override whose conversion
to a MDL AST expression fails yields -8. -/
def buildCallArgs (defaults : List (String × VarExpr)) :
    List String → Int
  | [] => 0
  | p :: rest =>
    match lookupName defaults p with
    | none => buildCallArgs defaults rest
    | some v => if v.convertOk then buildCallArgs defaults rest else -8

/-- `Mdl_module::add_variant`: validate the overrides, build the call
arguments, convert the annotation block (`annosResult` stands in for
`create_annotations`, whose failures are propagated), and only then add
the new declaration to the module under construction (modelled as the
list of its declaration names). The prototype-dereference step
(`get_prototype`) is resolved before this model is entered. -/
def add_variant (typeMatches : Ty → Ty → Bool) (proto : PrototypeD)
    (variantName : String) (defaults : List (String × VarExpr))
    (annosResult : Int) (modl : List String) : Int × List String :=
  if checkDefaults typeMatches proto.paramTypes defaults ≠ 0 then
    (checkDefaults typeMatches proto.paramTypes defaults, modl)
  else if buildCallArgs defaults proto.paramNames ≠ 0 then
    (buildCallArgs defaults proto.paramNames, modl)
  else if annosResult ≠ 0 then (annosResult, modl)
  else (0, modl ++ [variantName])

/-! Material promotion synthesis: `add_material`. -/

/-- One parameter-promotion request (`Parameter_data`). -/
structure ParameterData where
  pname : String
  path : List String
  enforceUniform : Bool
deriving DecidableEq, Repr

/-- A collected new parameter (`New_parameter`): symbol, resolved init
expression, and the uniform flag `must_be_uniform || m_enforce_uniform`. -/
structure NewParam where
  pname : String
  init : ExprId
  isUniform : Bool
deriving DecidableEq, Repr

/-- Frequency qualifier on a synthesized type name (`set_qualifier`):
either left at its default or set to `FQ_UNIFORM`. -/
inductive FQ where
  | fqNone
  | fqUniform
deriving DecidableEq, Repr

/-- A synthesized formal parameter of the new material, as far as the
claims are concerned: name, type-name qualifier, init expression. -/
structure BuiltParam where
  pname : String
  qual : FQ
  init : ExprId
deriving DecidableEq, Repr

/-- The resource-type test of `add_material` (lines 899-904). -/
def resourceKind : TKind → Bool
  | TKind.texture => true
  | TKind.bsdfMeasurement => true
  | TKind.lightProfile => true
  | TKind.otherKind => false

/-- The path-traversal loop of `add_material` (lines 778-800): resolve
each request's path (-13 on failure), run the uniform analyzer (-15 on
conflict), and collect the new parameters. `.error (-99)` is the
fuel-exhaustion artifact of the embedded analyzer (no C++ counterpart). -/
def collectNewParams (env : Env) (args : ExprList)
    (ptypes : List (String × TypeMod)) (fuel : Nat) :
    List ParameterData → Except Int (List NewParam)
  | [] => Except.ok []
  | pd :: rest =>
    match find_path env pd.path args with
    | none => Except.error (-13)
    | some eid =>
      match can_enforce_uniform env args ptypes pd.path eid fuel with
      | some (AResult.ok must) =>
        match collectNewParams env args ptypes fuel rest with
        | Except.ok ps =>
          Except.ok (⟨pd.pname, eid, must || pd.enforceUniform⟩ :: ps)
        | Except.error e => Except.error e
      | some AResult.conflict => Except.error (-15)
      | some AResult.fuelOut => Except.error (-99)
      | none => Except.error (-99)

/-- The parameter-emission loop of `add_material` (lines 887-920): the
qualifier is set to `FQ_UNIFORM` when the collected flag demands it, and
set to `FQ_UNIFORM` again, unconditionally, when the init expression's
type is a resource type. -/
def buildParams (env : Env) : List NewParam → List BuiltParam
  | [] => []
  | p :: rest =>
    let q0 := if p.isUniform then FQ.fqUniform else FQ.fqNone
    let q :=
      if resourceKind (env.exprs p.init).tyKind then FQ.fqUniform else q0
    ⟨p.pname, q, p.init⟩ :: buildParams env rest

/-- `Mdl_module::add_material`, to the depth the claims need: the
no-arguments guard (-6), path traversal and uniform analysis, then the
synthesized parameter list. -/
def add_material (env : Env) (argsValid : Bool) (args : ExprList)
    (ptypes : List (String × TypeMod)) (fuel : Nat)
    (mparams : List ParameterData) : Except Int (List BuiltParam) :=
  if argsValid = false ∧ mparams ≠ [] then Except.error (-6)
  else
    match collectNewParams env args ptypes fuel mparams with
    | Except.ok nps => Except.ok (buildParams env nps)
    | Except.error e => Except.error e

/-! Concrete test data. -/

/-- A concrete environment exercising the analyzer branches.
Identifiers: 0 = direct call to the ternary operator definition (tag 1),
2 = call to a material instance (tag 3), 5 = constant, 6 = call (tag 7) to
a stored instance of the ternary operator, 8 = call (tag 9, uniform
return) to a uniform function `F(x : uniform)` (tag 10) applied to the
constant 11, 12 = call (tag 13) to a varying function (tag 14) applied to
the constant 15, 16 = a texture-typed constant. -/
def cenv : Env where
  exprs := fun i =>
    if i = 0 then ⟨ExprKind.directCall 1 [("c", 5)], false, TKind.otherKind⟩
    else if i = 2 then ⟨ExprKind.call 3, false, TKind.otherKind⟩
    else if i = 6 then ⟨ExprKind.call 7, false, TKind.otherKind⟩
    else if i = 8 then ⟨ExprKind.call 9, true, TKind.otherKind⟩
    else if i = 12 then ⟨ExprKind.call 13, false, TKind.otherKind⟩
    else if i = 16 then ⟨ExprKind.constant, false, TKind.texture⟩
    else ⟨ExprKind.constant, false, TKind.otherKind⟩
  classOf := fun t =>
    if t = 1 then ClassId.functionDefinition
    else if t = 3 then ClassId.materialInstance
    else if t = 7 then ClassId.functionCall
    else if t = 9 then ClassId.functionCall
    else if t = 13 then ClassId.functionCall
    else ClassId.otherClass
  fcalls := fun t =>
    if t = 7 then ⟨1, [("cond", 5)]⟩
    else if t = 9 then ⟨10, [("x", 11)]⟩
    else if t = 13 then ⟨14, [("c", 15)]⟩
    else ⟨0, []⟩
  minsts := fun _ => []
  fdefs := fun t =>
    if t = 1 then ⟨Semantic.operatorSem okTernary, true, false, [⟨false, false⟩]⟩
    else if t = 10 then ⟨Semantic.userDefined, true, false, [⟨true, false⟩]⟩
    else if t = 14 then ⟨Semantic.userDefined, true, true, [⟨false, false⟩]⟩
    else ⟨Semantic.userDefined, true, false, []⟩

/-! Claim theorems. -/

/-- `checkNamesFree` succeeds exactly when every name is unregistered. -/
theorem checkNamesFree_iff (st : RegState) :
    ∀ (l : List String), checkNamesFree st l = true ↔
      ∀ n ∈ l, regLookup st n = none := by
  intro l
  induction l with
  | nil => simp [checkNamesFree]
  | cons a rest ih =>
    simp only [checkNamesFree, Bool.and_eq_true, ih, Option.isNone_iff_eq_none,
      List.mem_cons]
    constructor
    · rintro ⟨h1, h2⟩ n (h | h)
      · rw [h]; exact h1
      · exact h2 n h
    · intro h
      exact ⟨h a (Or.inl rfl), fun n hn => h n (Or.inr hn)⟩

/-- C1: in the finalize step of `create_module_internal`, if after import
resolution any function or material DB name of the module is already
registered, the call fails with -3 and the registry is left exactly as
the import phase produced it: no record for the module or for any of its
function/material definitions is stored. -/
theorem export_collision_atomic (menv : ModEnv) (f : Nat)
    (st st1 : RegState) (m : ModuleDesc)
    (hvalid : m.valid = true)
    (hfresh : regLookup st m.name = none)
    (hrestore : m.restoreOk = true)
    (hcompile : m.compileOk = true)
    (herr : m.errorCount = 0)
    (himp : processImports menv f st m.imports = (0, st1))
    (hclash : ∃ n, (n ∈ m.functionNames ∨ n ∈ m.materialNames) ∧
      (regLookup st1 n).isSome = true) :
    createModuleInternal menv (f + 1) st m = (-3, st1) := by
  have hfin : finalizeModule st1 m = (-3, st1) := by
    obtain ⟨n, hn, hsome⟩ := hclash
    have hnone : ¬ regLookup st1 n = none := by
      intro h0
      rw [h0] at hsome
      cases hsome
    unfold finalizeModule
    rcases Bool.eq_false_or_eq_true (checkNamesFree st1 m.functionNames)
      with hf1 | hf1
    · have hm1 : checkNamesFree st1 m.materialNames = false := by
        rcases hn with h | h
        · exact absurd ((checkNamesFree_iff st1 m.functionNames).mp hf1 n h)
            hnone
        · rcases Bool.eq_false_or_eq_true
            (checkNamesFree st1 m.materialNames) with hm2 | hm2
          · exact absurd ((checkNamesFree_iff st1 m.materialNames).mp hm2 n h)
              hnone
          · exact hm2
      rw [hf1, hm1]
      simp
    · rw [hf1]
      simp
  have hgate : moduleGate st m = none := by
    unfold moduleGate
    rw [hvalid, hfresh, hrestore, hcompile, herr]
    simp
  unfold processImports at himp
  unfold createModuleInternal driveAux
  simp [hgate, himp]
  exact hfin

/-- Concrete module data for the driver witnesses: `m1` declares one
function whose DB name is already registered in `stC1`. -/
def m1 : ModuleDesc :=
  ⟨"mdl::m", true, true, true, 0, [], ["mdl::m::f(int)"], []⟩

/-- Registry already holding the function name that `m1` wants. -/
def stC1 : RegState := [("mdl::m::f(int)", RegKind.functionDef)]

/-- Trivial module environment for the driver witnesses. -/
def menv0 : ModEnv := fun _ => ⟨"mdl::e", true, true, true, 0, [], [], []⟩

/-- Witness for C1: the collision makes the finalize step fail with -3
and leaves the registry untouched. -/
theorem export_collision_atomic_witness :
    createModuleInternal menv0 2 stC1 m1 = (-3, stC1) :=
  export_collision_atomic menv0 1 stC1 stC1 m1 (by decide) (by decide)
    (by decide) (by decide) (by decide) (by decide)
    ⟨"mdl::m::f(int)", Or.inl (by decide), by decide⟩

/-- Storing definition records does not touch names outside the stored
list. -/
theorem regLookup_storeDefs (k : RegKind) :
    ∀ (l : List String) (st : RegState) (n : String), n ∉ l →
      regLookup (storeDefs st k l) n = regLookup st n := by
  intro l
  induction l with
  | nil => intro st n _; rfl
  | cons a rest ih =>
    intro st n hn
    have hne : a ≠ n := fun h => hn (h ▸ List.mem_cons_self a rest)
    have hnr : n ∉ rest := fun h => hn (List.mem_cons_of_mem _ h)
    unfold storeDefs
    rw [ih (regStore st a k) n hnr]
    simp [regStore, regLookup, lookupName, hne]

/-- Every early return of the gate carries a nonzero status. -/
theorem moduleGate_fst_ne_zero (st : RegState) (m : ModuleDesc)
    (r : Int × RegState) (h : moduleGate st m = some r) : r.1 ≠ 0 := by
  unfold moduleGate at h
  repeat' split at h
  all_goals cases h
  all_goals simp

/-- A successful finalize step registers the module record under the
module's DB name (provided no definition name shadows it). -/
theorem finalizeModule_zero_lookup (st : RegState) (m : ModuleDesc)
    (st2 : RegState) (h : finalizeModule st m = (0, st2))
    (hf : m.name ∉ m.functionNames) (hm : m.name ∉ m.materialNames) :
    regLookup st2 m.name = some RegKind.moduleKind := by
  unfold finalizeModule at h
  split at h
  · simp at h
  · split at h
    · simp at h
    · injection h with h1 h2
      rw [← h2]
      rw [regLookup_storeDefs RegKind.materialDef m.materialNames _ _ hm]
      rw [regLookup_storeDefs RegKind.functionDef m.functionNames _ _ hf]
      simp [regStore, regLookup, lookupName]

/-- A successful `create_module_internal` registers the module record
under the module's DB name. -/
theorem createModuleInternal_zero_lookup (menv : ModEnv) (fuel : Nat)
    (st : RegState) (m : ModuleDesc) (st2 : RegState)
    (h : createModuleInternal menv fuel st m = (0, st2))
    (hf : m.name ∉ m.functionNames) (hm : m.name ∉ m.materialNames) :
    regLookup st2 m.name = some RegKind.moduleKind := by
  unfold createModuleInternal at h
  cases fuel with
  | zero =>
    unfold driveAux at h
    simp at h
  | succ f =>
    unfold driveAux at h
    split at h
    · rename_i r heq
      have : r.1 = 0 := by rw [h]
      exact absurd this (moduleGate_fst_ne_zero st m r heq)
    · split at h
      · exact finalizeModule_zero_lookup _ m st2 h hf hm
      · rename_i hne
        rw [h] at hne
        simp at hne

/-- C6: module creation with an already-registered target name: if the
name holds a module, the call returns 1 without storing anything; if it
holds any other kind, the call returns -3 regardless of content validity;
and a second creation after a successful first one is a registry no-op
returning 1. -/
theorem create_module_existing_name :
    (∀ (menv : ModEnv) (loadOk : Bool) (m : ModuleDesc) (fuel : Nat)
       (st : RegState),
      regLookup st m.name = some RegKind.moduleKind →
      create_module menv true loadOk m fuel st = (1, st))
    ∧ (∀ (menv : ModEnv) (loadOk : Bool) (m : ModuleDesc) (fuel : Nat)
       (st : RegState) (k : RegKind),
      regLookup st m.name = some k → k ≠ RegKind.moduleKind →
      create_module menv true loadOk m fuel st = (-3, st))
    ∧ (∀ (menv : ModEnv) (loadOk loadOk2 : Bool) (m : ModuleDesc)
       (fuel fuel2 : Nat) (st st2 : RegState),
      create_module menv true loadOk m fuel st = (0, st2) →
      m.name ∉ m.functionNames → m.name ∉ m.materialNames →
      create_module menv true loadOk2 m fuel2 st2 = (1, st2)) := by
  refine ⟨?_, ?_, ?_⟩
  · intro menv lo m fuel st h
    unfold create_module
    rw [if_neg (by simp), h]
    rfl
  · intro menv lo m fuel st k h hk
    unfold create_module
    rw [if_neg (by simp), h]
    simp [hk]
  · intro menv lo lo2 m fuel fuel2 st st2 h hf hm
    have hlook : regLookup st2 m.name = some RegKind.moduleKind := by
      unfold create_module at h
      rw [if_neg (by simp)] at h
      cases hl : regLookup st m.name with
      | some k =>
        rw [hl] at h
        simp only [] at h
        split at h <;> simp at h
      | none =>
        rw [hl] at h
        simp only [] at h
        split at h
        · simp at h
        · exact createModuleInternal_zero_lookup menv fuel st m st2 h hf hm
    unfold create_module
    rw [if_neg (by simp), hlook]
    rfl

/-- A minimal module description for the C6 witness. -/
def m0 : ModuleDesc := ⟨"mdl::m", true, true, true, 0, [], [], []⟩

/-- Witness for C6: with "mdl::m" registered as a module the call is the
idempotent no-op 1; registered as a function definition it is -3; and a
successful creation from the empty registry followed by a second call
yields 1 on the registry produced by the first. -/
theorem create_module_existing_name_witness :
    create_module menv0 true true m0 1 [("mdl::m", RegKind.moduleKind)]
      = (1, [("mdl::m", RegKind.moduleKind)]) ∧
    create_module menv0 true false m0 1 [("mdl::m", RegKind.functionDef)]
      = (-3, [("mdl::m", RegKind.functionDef)]) ∧
    create_module menv0 true true m0 5 [("mdl::m", RegKind.moduleKind)]
      = (1, [("mdl::m", RegKind.moduleKind)]) :=
  ⟨create_module_existing_name.1 menv0 true m0 1
     [("mdl::m", RegKind.moduleKind)] (by decide),
   create_module_existing_name.2.1 menv0 false m0 1
     [("mdl::m", RegKind.functionDef)] RegKind.functionDef (by decide)
     (by decide),
   create_module_existing_name.2.2 menv0 true true m0 2 5 []
     [("mdl::m", RegKind.moduleKind)] (by decide) (by decide) (by decide)⟩

/-- C10: in `can_enforce_uniform`, a Direct-call expression referencing a
material definition makes the popped entry conflict unconditionally
(independent of the entry's uniform requirement), whereas a Call
referencing a material instance conflicts only when the requirement is
true — with requirement false it is processed without conflict and
without pushing anything. -/
theorem direct_call_material_definition_always_fails :
    (∀ (env : Env) (e : Entry) (tag : Tag) (cargs : ExprList),
      (env.exprs e.expr).kind = ExprKind.directCall tag cargs →
      env.classOf tag = ClassId.materialDefinition →
      stepEntry env e = none)
    ∧ (∀ (env : Env) (e : Entry) (tag : Tag),
      (env.exprs e.expr).kind = ExprKind.call tag →
      env.classOf tag = ClassId.materialInstance →
      e.isUniform = false →
      stepEntry env e = some []) := by
  constructor
  · intro env e tag cargs hk hc
    simp [stepEntry, hk, hc]
  · intro env e tag hk hc hu
    simp [stepEntry, hk, hc, hu]

/-- Environment for the C10 witness: expression 0 is a direct call whose
definition tag 1 is registered as a material definition. -/
def envC10 : Env where
  exprs := fun i =>
    if i = 0 then ⟨ExprKind.directCall 1 [("c", 5)], false, TKind.otherKind⟩
    else if i = 2 then ⟨ExprKind.call 3, false, TKind.otherKind⟩
    else ⟨ExprKind.constant, false, TKind.otherKind⟩
  classOf := fun t =>
    if t = 1 then ClassId.materialDefinition
    else if t = 3 then ClassId.materialInstance
    else ClassId.otherClass
  fcalls := fun _ => ⟨0, []⟩
  minsts := fun _ => []
  fdefs := fun _ => ⟨Semantic.userDefined, true, false, []⟩

/-- Witness for C10: the direct call conflicts with requirement false and
true alike; the material-instance call with requirement false does not. -/
theorem direct_call_material_definition_always_fails_witness :
    stepEntry envC10 ⟨0, false⟩ = none ∧
    stepEntry envC10 ⟨0, true⟩ = none ∧
    stepEntry envC10 ⟨2, false⟩ = some [] :=
  ⟨direct_call_material_definition_always_fails.1 envC10 ⟨0, false⟩ 1
      [("c", 5)] (by decide) (by decide),
   direct_call_material_definition_always_fails.1 envC10 ⟨0, true⟩ 1
      [("c", 5)] (by decide) (by decide),
   direct_call_material_definition_always_fails.2 envC10 ⟨2, false⟩ 3
      (by decide) (by decide) (by decide)⟩

/-- C2, counterexample: in the `EK_DIRECT_CALL` branch there is no
ternary special case. Expression 0 of `cenv` is a direct call whose
callee (tag 1) is the ternary conditional operator; popped with
requirement false, its argument at position 0 (id 5) is pushed with
requirement false, not true. -/
theorem ternary_direct_call_push_cex :
    (cenv.exprs 0).kind = ExprKind.directCall 1 [("c", 5)] ∧
    cenv.classOf 1 = ClassId.functionDefinition ∧
    (cenv.fdefs 1).semantic = Semantic.operatorSem okTernary ∧
    stepEntry cenv ⟨0, false⟩ = some [⟨5, false⟩] := by
  refine ⟨by decide, by decide, by decide, ?_⟩
  decide

/-- C2, amended: for a `Call` expression (`EK_CALL`) whose callee is the
ternary conditional operator, processing the entry never conflicts and
the argument at position 0 is pushed with requirement true, regardless of
the entry's own requirement and of the condition parameter's declared
qualifier. -/
theorem ternary_call_condition_forced_uniform (env : Env) (e : Entry)
    (tag : Tag) (nm : String) (a0 : ExprId) (rest : ExprList)
    (hk : (env.exprs e.expr).kind = ExprKind.call tag)
    (hc : env.classOf tag = ClassId.functionCall)
    (ht : (env.fdefs (env.fcalls tag).defTag).semantic
        = Semantic.operatorSem okTernary)
    (hargs : (env.fcalls tag).args = (nm, a0) :: rest) :
    ∃ l, stepEntry env e = some l ∧ l.head? = some ⟨a0, true⟩ := by
  have huf : is_uniform_function (env.fdefs (env.fcalls tag).defTag) = true := by
    unfold is_uniform_function
    rw [ht]
  refine ⟨pushArgs (e.isUniform && !(env.exprs e.expr).retUniform) true
      (env.fdefs (env.fcalls tag).defTag).paramTypes 0 ((nm, a0) :: rest),
      ?_, ?_⟩
  · unfold stepEntry
    rw [hk]
    simp [hc, huf, ht, hargs]
  · simp [pushArgs]

/-- Witness for the amended C2: expression 6 of `cenv` is a stored call
to the ternary operator; popped with requirement false, its condition
argument (id 5) is pushed with requirement true. -/
theorem ternary_call_condition_forced_uniform_witness :
    ∃ l, stepEntry cenv ⟨6, false⟩ = some l ∧
      l.head? = some ⟨5, true⟩ :=
  ternary_call_condition_forced_uniform cenv ⟨6, false⟩ 7 "cond" 5 []
    (by decide) (by decide) (by decide) (by decide)

/-- If any popped entry of the analysis loop conflicts, the loop result
is `conflict` (the conflicting entry is the last popped one). -/
theorem mem_trace_conflict (env : Env) (pExpr : ExprId) :
    ∀ (fuel : Nat) (q : List Entry) (must : Bool) (r : AResult)
      (tr : List Entry) (e : Entry),
      analyzeLoopT env pExpr fuel q must = (r, tr) → e ∈ tr →
      stepEntry env e = none → r = AResult.conflict := by
  intro fuel
  induction fuel with
  | zero =>
    intro q must r tr e h hmem hstep
    cases q with
    | nil =>
      simp only [analyzeLoopT, Prod.mk.injEq] at h
      rw [← h.2] at hmem
      cases hmem
    | cons e2 rest =>
      simp only [analyzeLoopT, Prod.mk.injEq] at h
      rw [← h.2] at hmem
      cases hmem
  | succ f ih =>
    intro q must r tr e h hmem hstep
    cases q with
    | nil =>
      simp only [analyzeLoopT, Prod.mk.injEq] at h
      rw [← h.2] at hmem
      cases hmem
    | cons e2 rest =>
      cases hse : stepEntry env e2 with
      | none =>
        simp only [analyzeLoopT, hse, Prod.mk.injEq] at h
        exact h.1.symm
      | some pushed =>
        simp only [analyzeLoopT, hse, Prod.mk.injEq] at h
        rw [← h.2] at hmem
        cases hmem with
        | head =>
          rw [hse] at hstep
          cases hstep
        | tail _ hmem2 =>
          exact ih (rest ++ pushed) _ r _ e (by rw [← h.1]) hmem2 hstep

/-- When the analysis loop terminates with `ok m`, the accumulated
`must_be_uniform` flag `m` is true exactly when it was seeded true or a
popped entry targets `pExpr` with requirement true. -/
theorem analyzeLoopT_ok_iff (env : Env) (pExpr : ExprId) :
    ∀ (fuel : Nat) (q : List Entry) (must m : Bool) (tr : List Entry),
      analyzeLoopT env pExpr fuel q must = (AResult.ok m, tr) →
      (m = true ↔
        (must = true ∨ ∃ e ∈ tr, e.expr = pExpr ∧ e.isUniform = true)) := by
  intro fuel
  induction fuel with
  | zero =>
    intro q must m tr h
    cases q with
    | nil =>
      simp only [analyzeLoopT, Prod.mk.injEq, AResult.ok.injEq] at h
      rw [← h.1, ← h.2]
      simp
    | cons e2 rest =>
      simp only [analyzeLoopT, Prod.mk.injEq] at h
      cases h.1
  | succ f ih =>
    intro q must m tr h
    cases q with
    | nil =>
      simp only [analyzeLoopT, Prod.mk.injEq, AResult.ok.injEq] at h
      rw [← h.1, ← h.2]
      simp
    | cons e2 rest =>
      cases hse : stepEntry env e2 with
      | none =>
        simp only [analyzeLoopT, hse, Prod.mk.injEq] at h
        cases h.1
      | some pushed =>
        simp only [analyzeLoopT, hse, Prod.mk.injEq] at h
        obtain ⟨h1, h2⟩ := h
        subst h2
        rcases Bool.eq_false_or_eq_true (e2.isUniform && e2.expr == pExpr)
          with hb | hb
        · rw [hb] at h1 ⊢
          rw [if_pos rfl] at h1 ⊢
          have hx := ih (rest ++ pushed) true m
            (analyzeLoopT env pExpr f (rest ++ pushed) true).2
            (by rw [← h1])
          have hb2 : e2.isUniform = true ∧ e2.expr = pExpr := by
            simpa using hb
          have he2u : e2.isUniform = true := hb2.1
          have he2p : e2.expr = pExpr := hb2.2
          constructor
          · intro _
            exact Or.inr ⟨e2, List.mem_cons_self _ _, he2p, he2u⟩
          · intro _
            exact hx.mpr (Or.inl rfl)
        · rw [hb] at h1 ⊢
          rw [if_neg (by simp)] at h1 ⊢
          have hx := ih (rest ++ pushed) must m
            (analyzeLoopT env pExpr f (rest ++ pushed) must).2
            (by rw [← h1])
          rw [hx]
          constructor
          · rintro (hm | ⟨e, he, hp⟩)
            · exact Or.inl hm
            · exact Or.inr ⟨e, List.mem_cons_of_mem _ he, hp⟩
          · rintro (hm | ⟨e, he, hp⟩)
            · exact Or.inl hm
            · cases he with
              | head =>
                rw [hp.1, hp.2] at hb
                simp at hb
              | tail _ he2 =>
                exact Or.inr ⟨e, he2, hp⟩

/-- C3: when `can_enforce_uniform` succeeds, the `must_be_uniform`
output is true exactly when some popped work-queue entry has an
expression identical to the target `pExpr` and requirement true. -/
theorem must_be_uniform_iff_popped_uniform_target (env : Env)
    (args : ExprList) (ptypes : List (String × TypeMod))
    (path : List String) (pExpr : ExprId) (fuel : Nat) (m : Bool)
    (tr : List Entry)
    (h : can_enforce_uniformT env args ptypes path pExpr fuel
        = some (AResult.ok m, tr)) :
    (m = true ↔ ∃ e ∈ tr, e.expr = pExpr ∧ e.isUniform = true) := by
  unfold can_enforce_uniformT at h
  cases h1 : lookupName args (path.headD "") with
  | none => rw [h1] at h; cases h
  | some e0 =>
    cases h2 : lookupName ptypes (path.headD "") with
    | none => rw [h1, h2] at h; cases h
    | some pt =>
      rw [h1, h2] at h
      simp only [Option.some.injEq] at h
      have := analyzeLoopT_ok_iff env pExpr fuel [⟨e0, pt.uniform⟩] false m tr h
      simpa using this

/-- Witness for C3 (the spec scenario `G(F(p))`): the top-level parameter
"a" is declared uniform, its argument (id 8) calls the uniform-returning
function `F` (tag 10) whose parameter `x` is declared uniform, and the
promotion target is `F`'s argument, the constant 11. The requirement
propagates into the target and `must_be_uniform` is true. -/
theorem must_be_uniform_iff_popped_uniform_target_witness :
    can_enforce_uniformT cenv [("a", 8)] [("a", ⟨true, false⟩)]
        ["a", "x"] 11 5
      = some (AResult.ok true, [⟨8, true⟩, ⟨11, true⟩]) ∧
    find_path cenv ["a", "x"] [("a", 8)] = some 11 ∧
    (true = true ↔ ∃ e ∈ [Entry.mk 8 true, Entry.mk 11 true],
      e.expr = 11 ∧ e.isUniform = true) :=
  ⟨by decide, by decide,
   must_be_uniform_iff_popped_uniform_target cenv [("a", 8)]
     [("a", ⟨true, false⟩)] ["a", "x"] 11 5 true
     [⟨8, true⟩, ⟨11, true⟩] (by decide)⟩

/-- C5: if a path resolves to a Call expression referencing a material
instance, and the analysis pops that node with requirement true, then
`can_enforce_uniform` returns failure. -/
theorem material_instance_uniform_barrier (env : Env) (args : ExprList)
    (ptypes : List (String × TypeMod)) (path : List String)
    (pExpr : ExprId) (tag : Tag) (fuel : Nat) (r : AResult)
    (tr : List Entry)
    (hfind : find_path env path args = some pExpr)
    (hk : (env.exprs pExpr).kind = ExprKind.call tag)
    (hc : env.classOf tag = ClassId.materialInstance)
    (hres : can_enforce_uniformT env args ptypes path pExpr fuel
        = some (r, tr))
    (hmem : Entry.mk pExpr true ∈ tr) :
    r = AResult.conflict := by
  have hstep : stepEntry env ⟨pExpr, true⟩ = none := by
    unfold stepEntry
    rw [hk]
    simp [hc]
  unfold can_enforce_uniformT at hres
  cases h1 : lookupName args (path.headD "") with
  | none => rw [h1] at hres; cases hres
  | some e0 =>
    cases h2 : lookupName ptypes (path.headD "") with
    | none => rw [h1, h2] at hres; cases hres
    | some pt =>
      rw [h1, h2] at hres
      simp only [Option.some.injEq] at hres
      exact mem_trace_conflict env pExpr fuel [⟨e0, pt.uniform⟩] false r tr
        ⟨pExpr, true⟩ hres hmem hstep

/-- Witness for C5: path "m" resolves to expression 2, a call to the
material instance tag 3; the seed requirement is true (parameter declared
uniform), the node is popped with requirement true, and the analysis
conflicts. -/
theorem material_instance_uniform_barrier_witness :
    can_enforce_uniformT cenv [("m", 2)] [("m", ⟨true, false⟩)] ["m"] 2 5
      = some (AResult.conflict, [⟨2, true⟩]) ∧
    AResult.conflict = AResult.conflict :=
  ⟨by decide,
   material_instance_uniform_barrier cenv [("m", 2)]
     [("m", ⟨true, false⟩)] ["m"] 2 3 5 AResult.conflict [⟨2, true⟩]
     (by decide) (by decide) (by decide) (by decide) (by decide)⟩

/-- C4, counterexample: the path "p.c" resolves to the constant 15, yet
`can_enforce_uniform` fails: the analysis starts at the top-level
argument (the call 12 to the varying function 14) with a uniform seed and
conflicts there, before the constant is even reached. -/
theorem constant_path_conflict_cex :
    find_path cenv ["p", "c"] [("p", 12)] = some 15 ∧
    (cenv.exprs 15).kind = ExprKind.constant ∧
    can_enforce_uniform cenv [("p", 12)] [("p", ⟨true, false⟩)]
        ["p", "c"] 15 5
      = some AResult.conflict := by
  refine ⟨by decide, by decide, ?_⟩
  decide

/-- C4, amended: a popped Constant entry never conflicts and expands
nothing; consequently, for every single-segment path whose top-level
argument is itself a Constant, `can_enforce_uniform` succeeds regardless
of the seed requirement. -/
theorem constant_entry_always_ok :
    (∀ (env : Env) (e : Entry),
      (env.exprs e.expr).kind = ExprKind.constant →
      stepEntry env e = some [])
    ∧ (∀ (env : Env) (args : ExprList) (ptypes : List (String × TypeMod))
        (nm : String) (cid : ExprId) (pt : TypeMod) (f : Nat),
      lookupName args nm = some cid →
      (env.exprs cid).kind = ExprKind.constant →
      lookupName ptypes nm = some pt →
      ∃ m, can_enforce_uniform env args ptypes [nm] cid (f + 1)
        = some (AResult.ok m)) := by
  have hconst : ∀ (env : Env) (e : Entry),
      (env.exprs e.expr).kind = ExprKind.constant →
      stepEntry env e = some [] := by
    intro env e hk
    unfold stepEntry
    rw [hk]
  refine ⟨hconst, ?_⟩
  intro env args ptypes nm cid pt f h1 hk h2
  refine ⟨if pt.uniform && cid == cid then true else false, ?_⟩
  unfold can_enforce_uniform can_enforce_uniformT
  simp only [List.headD_cons]
  rw [h1, h2]
  simp only [Option.map_some']
  have hstep := hconst env ⟨cid, pt.uniform⟩ hk
  simp [analyzeLoopT, hstep]

/-- Witness for the amended C4: the constant 5 of `cenv` promoted
through the single-segment path "k" with a uniform seed. -/
theorem constant_entry_always_ok_witness :
    stepEntry cenv ⟨5, false⟩ = some [] ∧
    ∃ m, can_enforce_uniform cenv [("k", 5)] [("k", ⟨true, false⟩)]
      ["k"] 5 1 = some (AResult.ok m) :=
  ⟨constant_entry_always_ok.1 cenv ⟨5, false⟩ (by decide),
   constant_entry_always_ok.2 cenv [("k", 5)] [("k", ⟨true, false⟩)]
     "k" 5 ⟨true, false⟩ 0 (by decide) (by decide) (by decide)⟩

/-- Membership in the emitted parameter list of `buildParams`. -/
theorem buildParams_resource_uniform (env : Env) :
    ∀ (nps : List NewParam) (p : BuiltParam), p ∈ buildParams env nps →
      resourceKind (env.exprs p.init).tyKind = true →
      p.qual = FQ.fqUniform := by
  intro nps
  induction nps with
  | nil => intro p hp; simp [buildParams] at hp
  | cons q rest ih =>
    intro p hp hres
    simp only [buildParams, List.mem_cons] at hp
    rcases hp with h | h
    · subst h
      simp only at hres
      simp [hres]
    · exact ih p h hres

/-- C9: every parameter synthesized by `add_material` whose init
expression has a resource type (texture, bsdf-measurement, or
light-profile) carries the `FQ_UNIFORM` qualifier, whatever verdict the
uniform analyzer produced for it. -/
theorem resource_type_forces_uniform_qualifier (env : Env)
    (argsValid : Bool) (args : ExprList)
    (ptypes : List (String × TypeMod)) (fuel : Nat)
    (mparams : List ParameterData) (ps : List BuiltParam) (p : BuiltParam)
    (h : add_material env argsValid args ptypes fuel mparams
        = Except.ok ps)
    (hp : p ∈ ps)
    (hres : resourceKind (env.exprs p.init).tyKind = true) :
    p.qual = FQ.fqUniform := by
  unfold add_material at h
  split at h
  · exact absurd h (by simp)
  · split at h
    · rename_i nps hnps
      cases h
      exact buildParams_resource_uniform env nps p hp hres
    · exact absurd h (by simp)

/-- Witness for C9: promoting the texture-typed constant 16 of `cenv`
under a non-uniform seed (the analyzer's verdict is `must = false`) still
yields a uniformly qualified parameter. -/
theorem resource_type_forces_uniform_qualifier_witness :
    add_material cenv true [("t", 16)] [("t", ⟨false, false⟩)] 5
        [⟨"np", ["t"], false⟩]
      = Except.ok [⟨"np", FQ.fqUniform, 16⟩] ∧
    (BuiltParam.mk "np" FQ.fqUniform 16).qual = FQ.fqUniform :=
  ⟨by rfl,
   resource_type_forces_uniform_qualifier cenv true [("t", 16)]
     [("t", ⟨false, false⟩)] 5 [⟨"np", ["t"], false⟩]
     [⟨"np", FQ.fqUniform, 16⟩] ⟨"np", FQ.fqUniform, 16⟩
     (by rfl) (by decide) (by decide)⟩

/-! Lemmas for C7: version selection. -/

/-- `lexLe` is reflexive. -/
theorem lexLe_refl (p : Int × Int) : lexLe p p := by
  unfold lexLe
  omega

/-- `lexLe` is transitive. -/
theorem lexLe_trans {p q r : Int × Int} (h1 : lexLe p q) (h2 : lexLe q r) :
    lexLe p r := by
  unfold lexLe at *
  omega

/-- `lexLe` is antisymmetric. -/
theorem lexLe_antisymm {p q : Int × Int} (h1 : lexLe p q)
    (h2 : lexLe q p) : p = q := by
  have h3 : p.1 = q.1 ∧ p.2 = q.2 := by
    unfold lexLe at *
    omega
  exact Prod.ext h3.1 h3.2

/-- One loop iteration keeps either the accumulator or the new pair. -/
theorem vstep_cases (acc p : Int × Int) :
    vstep acc p = acc ∨ vstep acc p = p := by
  unfold vstep
  split
  · exact Or.inr rfl
  · split
    · rename_i h2
      right
      rw [← h2.1]
    · exact Or.inl rfl

/-- The accumulator never decreases. -/
theorem lexLe_vstep_left (acc p : Int × Int) : lexLe acc (vstep acc p) := by
  unfold vstep
  split
  · rename_i h1
    exact Or.inl h1
  · split
    · rename_i h2
      exact Or.inr ⟨rfl, le_of_lt h2.2⟩
    · exact lexLe_refl acc

/-- Each visited pair is below the updated accumulator. -/
theorem lexLe_vstep_right (acc p : Int × Int) : lexLe p (vstep acc p) := by
  unfold vstep
  split
  · exact lexLe_refl p
  · split
    · rename_i h2
      exact Or.inr ⟨h2.1, le_refl p.2⟩
    · rename_i h1 h2
      rcases Decidable.em (p.1 = acc.1) with he | he
      · refine Or.inr ⟨he, ?_⟩
        by_contra hgt
        exact h2 ⟨he, by omega⟩
      · exact Or.inl (by omega)

/-- The fold result is the seed or one of the list elements. -/
theorem foldl_vstep_mem :
    ∀ (l : List (Int × Int)) (acc : Int × Int),
      l.foldl vstep acc ∈ acc :: l := by
  intro l
  induction l with
  | nil => intro acc; simp
  | cons p rest ih =>
    intro acc
    simp only [List.foldl_cons]
    have hmem := ih (vstep acc p)
    rcases vstep_cases acc p with h | h
    · rw [h] at hmem ⊢
      rcases List.mem_cons.mp hmem with h2 | h2
      · exact List.mem_cons.mpr (Or.inl h2)
      · exact List.mem_cons.mpr (Or.inr (List.mem_cons.mpr (Or.inr h2)))
    · rw [h] at hmem ⊢
      exact List.mem_cons.mpr (Or.inr hmem)

/-- The fold result dominates the seed and every list element. -/
theorem foldl_vstep_ge :
    ∀ (l : List (Int × Int)) (acc : Int × Int),
      lexLe acc (l.foldl vstep acc) ∧
      ∀ p ∈ l, lexLe p (l.foldl vstep acc) := by
  intro l
  induction l with
  | nil =>
    intro acc
    exact ⟨lexLe_refl acc, by simp⟩
  | cons p rest ih =>
    intro acc
    simp only [List.foldl_cons]
    obtain ⟨h1, h2⟩ := ih (vstep acc p)
    refine ⟨lexLe_trans (lexLe_vstep_left acc p) h1, ?_⟩
    intro q hq
    rcases List.mem_cons.mp hq with h | h
    · subst h
      exact lexLe_trans (lexLe_vstep_right acc q) h1
    · exact h2 q h

/-- C7: for a non-empty prototype list whose versions are all at least
1.0, the version chosen for the synthesized variant module is the image,
under the `(major, minor)` switch (1.0-1.4, everything else rounding up
to `MDL_LATEST_VERSION`), of the lexicographic maximum of the declared
prototype versions. -/
theorem variant_version_lex_max (l : List (Int × Int))
    (hne : l ≠ [])
    (hge : ∀ p ∈ l, lexLe (1, 0) p) :
    ∃ M, M ∈ l ∧ (∀ p ∈ l, lexLe p M) ∧
      chooseVersion l = versionFromPair M := by
  obtain ⟨h1, h2⟩ := foldl_vstep_ge l (1, 0)
  have hmem := foldl_vstep_mem l (1, 0)
  rcases List.mem_cons.mp hmem with h | h
  · obtain ⟨e, he⟩ := List.exists_mem_of_ne_nil l hne
    have hle : lexLe e (1, 0) := h ▸ h2 e he
    have heq : e = (1, 0) := lexLe_antisymm hle (hge e he)
    refine ⟨(1, 0), heq ▸ he, ?_, ?_⟩
    · intro p hp
      exact h ▸ h2 p hp
    · unfold chooseVersion maxVersionPair
      rw [h]
  · exact ⟨l.foldl vstep (1, 0), h, h2, rfl⟩

/-- Witness for C7: prototypes declaring versions 1.2 and 1.4 produce a
module at version 1.4. -/
theorem variant_version_lex_max_witness :
    chooseVersion [(1, 2), (1, 4)] = MdlVersion.v1_4 ∧
    ∃ M, M ∈ [((1 : Int), (2 : Int)), (1, 4)] ∧
      (∀ p ∈ [((1 : Int), (2 : Int)), (1, 4)], lexLe p M) ∧
      chooseVersion [(1, 2), (1, 4)] = versionFromPair M :=
  ⟨by decide,
   variant_version_lex_max [(1, 2), (1, 4)] (by decide) (by decide)⟩

/-! Lemmas for C8: variant override validation. -/

/-- An override passes the validation loop: its name is a parameter of
the prototype and its value's type matches the expected type. -/
def validOverride (tm : Ty → Ty → Bool) (expected : List (String × Ty))
    (p : String × VarExpr) : Bool :=
  match lookupName expected p.1 with
  | none => false
  | some t => tm p.2.ty t

/-- The validation loop skips overrides that pass. -/
theorem checkDefaults_skip (tm : Ty → Ty → Bool)
    (expected : List (String × Ty)) (p : String × VarExpr)
    (hv : validOverride tm expected p = true)
    (rest : List (String × VarExpr)) :
    checkDefaults tm expected (p :: rest)
      = checkDefaults tm expected rest := by
  obtain ⟨n, v⟩ := p
  unfold validOverride at hv
  simp only at hv
  show (match lookupName expected n with
    | none => (-6 : Int)
    | some t =>
      if tm v.ty t = true then checkDefaults tm expected rest else -7)
    = checkDefaults tm expected rest
  cases hl : lookupName expected n with
  | none =>
    rw [hl] at hv
    simp only at hv
    cases hv
  | some t =>
    rw [hl] at hv
    simp only at hv
    simp [hv]

/-- The validation loop reports the first failing override: -6 when its
name is unknown, -7 when its type mismatches. -/
theorem checkDefaults_first_invalid (tm : Ty → Ty → Bool)
    (expected : List (String × Ty)) :
    ∀ (pre : List (String × VarExpr)) (n : String) (v : VarExpr)
      (rest : List (String × VarExpr)),
      (∀ p ∈ pre, validOverride tm expected p = true) →
      validOverride tm expected (n, v) = false →
      checkDefaults tm expected (pre ++ (n, v) :: rest)
        = (if lookupName expected n = none then (-6 : Int) else -7) := by
  intro pre
  induction pre with
  | nil =>
    intro n v rest _ hbad
    simp only [List.nil_append]
    unfold validOverride at hbad
    simp only at hbad
    show (match lookupName expected n with
      | none => (-6 : Int)
      | some t =>
        if tm v.ty t = true then checkDefaults tm expected rest else -7)
      = (if lookupName expected n = none then (-6 : Int) else -7)
    cases hl : lookupName expected n with
    | none => simp
    | some t =>
      rw [hl] at hbad
      simp only at hbad
      simp [hbad]
  | cons q qrest ih =>
    intro n v rest hpre hbad
    simp only [List.cons_append]
    rw [checkDefaults_skip tm expected q (hpre q (List.mem_cons_self _ _))]
    exact ih n v rest (fun p hp => hpre p (List.mem_cons_of_mem _ hp)) hbad

/-- C8, counterexample: the claim "every unknown-name override makes the
call fail with -6" is false when an earlier override already fails the
type check: the override list below contains the unknown name "zzz", yet
the call fails with -7 (from the earlier mismatch on "a"). -/
theorem variant_unknown_name_not_minus6_cex :
    lookupName ([("a", 1)] : List (String × Ty)) "zzz" = none ∧
    ("zzz", VarExpr.mk 1 true)
      ∈ [("a", VarExpr.mk 2 true), ("zzz", VarExpr.mk 1 true)] ∧
    add_variant (fun a b => a == b) ⟨["a"], [("a", 1)]⟩ "v"
        [("a", VarExpr.mk 2 true), ("zzz", VarExpr.mk 1 true)] 0 []
      = (-7, []) := by
  refine ⟨by decide, by decide, ?_⟩
  decide

/-- C8, amended: the first override (in list order) that fails
validation determines the status: -6 when its name is not a prototype
parameter, -7 when its value's type fails the compatibility check; in
either case `add_variant` returns before adding any declaration, leaving
the module under construction unchanged. -/
theorem variant_first_invalid_override_status (tm : Ty → Ty → Bool)
    (proto : PrototypeD) (vn : String) (ar : Int) (modl : List String)
    (pre rest : List (String × VarExpr)) (n : String) (v : VarExpr)
    (hpre : ∀ p ∈ pre, validOverride tm proto.paramTypes p = true)
    (hbad : validOverride tm proto.paramTypes (n, v) = false) :
    add_variant tm proto vn (pre ++ (n, v) :: rest) ar modl
      = ((if lookupName proto.paramTypes n = none then (-6 : Int) else -7),
        modl) := by
  have hcheck := checkDefaults_first_invalid tm proto.paramTypes pre n v
    rest hpre hbad
  have hne : (if lookupName proto.paramTypes n = none then (-6 : Int)
      else -7) ≠ 0 := by
    split <;> decide
  unfold add_variant
  rw [hcheck, if_pos hne]

/-- Witness for the amended C8: a single unknown-name override yields
-6, a single mismatching override yields -7; the module list is unchanged
in both cases. -/
theorem variant_first_invalid_override_status_witness :
    add_variant (fun a b => a == b) ⟨["a"], [("a", 1)]⟩ "v"
        [("zzz", VarExpr.mk 1 true)] 0 ["w"]
      = ((if lookupName ([("a", 1)] : List (String × Ty)) "zzz" = none
          then (-6 : Int) else -7), ["w"]) ∧
    add_variant (fun a b => a == b) ⟨["a"], [("a", 1)]⟩ "v"
        [("a", VarExpr.mk 2 true)] 0 ["w"]
      = ((if lookupName ([("a", 1)] : List (String × Ty)) "a" = none
          then (-6 : Int) else -7), ["w"]) :=
  ⟨variant_first_invalid_override_status (fun a b => a == b)
     ⟨["a"], [("a", 1)]⟩ "v" 0 ["w"] [] [] "zzz" (VarExpr.mk 1 true)
     (by simp) (by decide),
   variant_first_invalid_override_status (fun a b => a == b)
     ⟨["a"], [("a", 1)]⟩ "v" 0 ["w"] [] [] "a" (VarExpr.mk 2 true)
     (by simp) (by decide)⟩

end MdlElements
